import Mathlib

/-!
# WellDoc patient-trend dashboard: verification of the data/statistics core

A shallow embedding of the data ingestion, filtering, statistics and insight
engine of the WellDoc dashboard (`src/utils/csvParser.ts`, the insights module,
`src/App.tsx`, `src/components/DistributionCharts.tsx`).

Modelling conventions:
* JavaScript numbers are modelled as exact rationals (`ℚ`); `Date` values as
  integer milliseconds since the epoch (`ℤ`).
* JavaScript's stable `Array.prototype.sort` is modelled by
  `List.insertionSort`, which is a stable sort.
* `x.toFixed(1)` is modelled on exact rationals (round to nearest tenth,
  ties away from zero, per the ECMAScript specification on exact values).
* Division by zero on JS numbers yields `NaN`/`±Infinity`; the places where
  the source can divide by zero are modelled with explicit case splits
  (see `jsBinIndexRaw` and the variability rule).
-/

namespace WellDoc

/-- The two data sources (`dataType` field of `CombinedData` in `types/index.ts`). -/
inductive DataType where
  | Historical
  | Predicted
deriving DecidableEq, Repr

/-- The four fixed attribute keys (`AttributeKey` in `types/index.ts`). -/
inductive AttributeKey where
  | StressIndex
  | HeartRate
  | SystolicBP
  | DiastolicBP
deriving DecidableEq, Repr

/-- The source filter (`DataTypeFilter` in `types/index.ts`). -/
inductive DataTypeFilter where
  | Both
  | Historical
  | Predicted
deriving DecidableEq, Repr

/-- A normalized record (`CombinedData` in `types/index.ts`): a timestamp in
milliseconds, a source tag, and four optional numeric attributes.  A missing or
non-numeric attribute is `none` (JS `undefined`). -/
structure CombinedData where
  datetime : ℤ
  dataType : DataType
  StressIndex : Option ℚ := none
  HeartRate : Option ℚ := none
  SystolicBP : Option ℚ := none
  DiastolicBP : Option ℚ := none
deriving DecidableEq, Repr

/-- Dynamic attribute access `d[attribute]`. -/
def getAttr (d : CombinedData) (a : AttributeKey) : Option ℚ :=
  match a with
  | .StressIndex => d.StressIndex
  | .HeartRate => d.HeartRate
  | .SystolicBP => d.SystolicBP
  | .DiastolicBP => d.DiastolicBP

/-- Insight kinds (`InsightData.type` in `types/index.ts`). -/
inductive InsightType where
  | warning
  | success
  | info
deriving DecidableEq, Repr

/-- A generated insight (`InsightData` in `types/index.ts`). -/
structure InsightData where
  type : InsightType
  icon : String
  message : String
deriving DecidableEq, Repr

/-- The raw attribute key string interpolated into insight messages
(template literal `${attribute}` in the insights module). -/
def attrName (a : AttributeKey) : String :=
  match a with
  | .StressIndex => "StressIndex"
  | .HeartRate => "HeartRate"
  | .SystolicBP => "SystolicBP"
  | .DiastolicBP => "DiastolicBP"

/-- `Number.prototype.toFixed(1)` on an exact nonnegative rational: round to
the nearest tenth, ties upward. -/
def ratToFixed1Nonneg (q : ℚ) : String :=
  let n : ℕ := (Int.floor (q * 10 + 1/2)).toNat
  toString (n / 10) ++ "." ++ toString (n % 10)

/-- `Number.prototype.toFixed(1)` on an exact rational: for negative input the
sign is emitted and the magnitude rounded (ties away from zero). -/
def ratToFixed1 (q : ℚ) : String :=
  if q < 0 then "-" ++ ratToFixed1Nonneg (-q) else ratToFixed1Nonneg q

/-- `(sqrt x).toFixed(1)` for a nonnegative rational `x`, computed exactly:
`round (10·√x) = ⌊(⌊√(400x)⌋ + 1)/2⌋` and `⌊√q⌋ = Nat.sqrt ⌊q⌋`. -/
def sqrtToFixed1 (x : ℚ) : String :=
  let n : ℕ := (Nat.sqrt (Int.floor (400 * x)).toNat + 1) / 2
  toString (n / 10) ++ "." ++ toString (n % 10)

/-- Arithmetic mean used throughout the source:
`values.reduce((a, b) => a + b, 0) / values.length`. -/
def listMean (values : List ℚ) : ℚ :=
  values.sum / values.length

/-- The inclusive date range of the Filter Criteria (`dateRange` in `App.tsx`);
`start`/`end` in epoch milliseconds. -/
structure DateRange where
  startMs : ℤ
  endMs : ℤ
deriving DecidableEq, Repr

/-- Whether a record passes the source filter:
`dataTypeFilter === 'Both' || d.dataType === dataTypeFilter`. -/
def matchesDataType (d : CombinedData) (f : DataTypeFilter) : Bool :=
  match f with
  | .Both => true
  | .Historical => decide (d.dataType = .Historical)
  | .Predicted => decide (d.dataType = .Predicted)

/-- The Filter Engine (`filteredData` memo in `App.tsx`, lines 59–67): keep a
record when its timestamp is in the inclusive date range, the selected
attribute is present, and the source matches the filter. -/
def computeWorkingSet (data : List CombinedData) (dr : DateRange)
    (a : AttributeKey) (f : DataTypeFilter) : List CombinedData :=
  data.filter fun d =>
    decide (dr.startMs ≤ d.datetime) && decide (d.datetime ≤ dr.endMs)
      && (getAttr d a).isSome && matchesDataType d f

/-- The aggregate metrics record computed by the `metrics` memo in `App.tsx`. -/
structure Metrics where
  average : ℚ
  max : ℚ
  min : ℚ
  totalRecords : ℕ
  historicalRecords : ℕ
  predictedRecords : ℕ
  dateSpan : ℤ
  changePercent : Option ℚ
deriving DecidableEq, Repr

/-- `Math.max(...values)` on a non-empty list, 0 otherwise (the empty case is
unreachable where used). -/
def listMax (values : List ℚ) : ℚ :=
  (values.max?).getD 0

/-- `Math.min(...values)` on a non-empty list, 0 otherwise (the empty case is
unreachable where used). -/
def listMin (values : List ℚ) : ℚ :=
  (values.min?).getD 0

/-- The Statistics Engine's aggregate metrics (`metrics` memo in `App.tsx`,
lines 70–107).  `filteredData` is the Working Set.  On an empty Working Set
every field is zero and `changePercent` is `none` (JS `undefined`); otherwise
`changePercent` is computed only when both source subsets are non-empty. -/
def metrics (filteredData : List CombinedData) (selectedAttribute : AttributeKey)
    (dateRange : DateRange) : Metrics :=
  if filteredData.length = 0 then
    { average := 0, max := 0, min := 0, totalRecords := 0,
      historicalRecords := 0, predictedRecords := 0, dateSpan := 0,
      changePercent := none }
  else
    let values := filteredData.map fun d => (getAttr d selectedAttribute).getD 0
    let historicalData := filteredData.filter fun d => decide (d.dataType = .Historical)
    let predictedData := filteredData.filter fun d => decide (d.dataType = .Predicted)
    let changePercent : Option ℚ :=
      if historicalData.length > 0 ∧ predictedData.length > 0 then
        let historicalMean :=
          (historicalData.map fun d => (getAttr d selectedAttribute).getD 0).sum
            / historicalData.length
        let predictedMean :=
          (predictedData.map fun d => (getAttr d selectedAttribute).getD 0).sum
            / predictedData.length
        some (((predictedMean - historicalMean) / historicalMean) * 100)
      else none
    let dateSpan : ℤ :=
      Int.ceil (((dateRange.endMs - dateRange.startMs : ℤ) : ℚ) / (1000 * 60 * 60 * 24))
    { average := values.sum / values.length,
      max := listMax values,
      min := listMin values,
      totalRecords := filteredData.length,
      historicalRecords := historicalData.length,
      predictedRecords := predictedData.length,
      dateSpan := dateSpan,
      changePercent := changePercent }

/-!
## Insight generator (the insights module)

The coefficient of variation is `CV = stdDev / mean * 100` with
`stdDev = √variance`.  Over the reals, for `mean > 0` the branch tests are
`CV > 20 ↔ mean² < 25·variance` and `CV < 10 ↔ 100·variance < mean²`
(square both sides of `5·√v > m`, resp. `10·√v < m`).  For `mean = 0` the JS
source divides by zero: `CV = NaN` when `variance = 0` (every comparison
false, so the moderate branch runs) and `CV = +Infinity` when `variance > 0`
(the high branch runs).  For `mean < 0`, `CV ≤ 0 < 10`, so the low branch
runs.  `cvGT20`/`cvLT10` encode exactly these real-number comparisons on
rationals.
-/

/-- `coefficientOfVariation > 20` of the JS source, decided exactly. -/
def cvGT20 (variance mean : ℚ) : Bool :=
  if mean = 0 then decide (0 < variance)
  else if 0 < mean then decide (mean ^ 2 < 25 * variance)
  else false

/-- `coefficientOfVariation < 10` of the JS source, decided exactly. -/
def cvLT10 (variance mean : ℚ) : Bool :=
  if mean = 0 then false
  else if 0 < mean then decide (100 * variance < mean ^ 2)
  else true

/-- `coefficientOfVariation.toFixed(1)`: the exact-arithmetic rendering of
`(100·√variance/mean).toFixed(1)`, with the JS strings `"NaN"` and
`"Infinity"` in the degenerate zero-mean cases. -/
def cvString (variance mean : ℚ) : String :=
  if mean = 0 then (if variance = 0 then "NaN" else "Infinity")
  else if mean < 0 ∧ variance ≠ 0 then "-" ++ sqrtToFixed1 (10000 * variance / mean ^ 2)
  else sqrtToFixed1 (10000 * variance / mean ^ 2)

/-- The ordinary least-squares slope of the trend rule: value against ordinal
index `0..n−1`, `slope = (n·Σxy − Σx·Σy) / (n·Σx² − (Σx)²)`. -/
def trendSlope (values : List ℚ) : ℚ :=
  let n : ℚ := values.length
  let sumX : ℚ := (values.enum.map fun p => (p.1 : ℚ)).sum
  let sumY : ℚ := values.sum
  let sumXY : ℚ := (values.enum.map fun p => (p.1 : ℚ) * p.2).sum
  let sumXX : ℚ := (values.enum.map fun p => (p.1 : ℚ) * (p.1 : ℚ)).sum
  (n * sumXY - sumX * sumY) / (n * sumXX - sumX * sumX)

/-- Rule 1 (historical-vs-predicted delta) of `generateInsights`:
`validData` is the working set restricted to records carrying the attribute. -/
def deltaRule (validData : List CombinedData) (a : AttributeKey)
    (dataTypeFilter : DataTypeFilter) : List InsightData :=
  if dataTypeFilter = .Both then
    let historicalData := validData.filter fun d => decide (d.dataType = .Historical)
    let predictedData := validData.filter fun d => decide (d.dataType = .Predicted)
    if 0 < historicalData.length ∧ 0 < predictedData.length then
      let historicalMean := listMean (historicalData.map fun d => (getAttr d a).getD 0)
      let predictedMean := listMean (predictedData.map fun d => (getAttr d a).getD 0)
      let changePercent := ((predictedMean - historicalMean) / historicalMean) * 100
      if 10 < changePercent then
        [{ type := .warning, icon := "⚠️",
           message := attrName a ++ " is projected to increase by "
             ++ ratToFixed1 changePercent ++ "%. Preventive measures recommended." }]
      else if changePercent < -10 then
        [{ type := .success, icon := "✅",
           message := attrName a ++ " shows signs of improvement with a projected decrease of "
             ++ ratToFixed1 |changePercent| ++ "%." }]
      else
        [{ type := .info, icon := "ℹ️",
           message := attrName a ++ " remains stable with minor fluctuations ("
             ++ (if 0 < changePercent then "+" else "") ++ ratToFixed1 changePercent ++ "%)." }]
    else []
  else []

/-- The body of the trend rule, taking the extracted `values` array
(`const values = validData.map(...)` inside the `validData.length > 1`
block). -/
def trendBody (values : List ℚ) (a : AttributeKey) : List InsightData :=
  let slope := trendSlope values
  if 1/100 < |slope| then
    if 0 < slope then
      [{ type := .info, icon := "📈",
         message := "Trend Analysis: " ++ attrName a
           ++ " shows an upward trend over the selected period." }]
    else
      [{ type := .info, icon := "📉",
         message := "Trend Analysis: " ++ attrName a
           ++ " shows a downward trend over the selected period." }]
  else
    [{ type := .info, icon := "➡️",
       message := "Trend Analysis: " ++ attrName a
         ++ " shows a stable trend over the selected period." }]

/-- Rule 2 (trend) of `generateInsights`: index-based least-squares slope,
emitted only when at least two points are available. -/
def trendRule (validData : List CombinedData) (a : AttributeKey) : List InsightData :=
  if 1 < validData.length then
    trendBody (validData.map fun d => (getAttr d a).getD 0) a
  else []

/-- The body of the variability rule, taking the extracted `values` array
(`const values = validData.map(...)`, line 223 of the insights module). -/
def variabilityBody (values : List ℚ) (a : AttributeKey) : List InsightData :=
  let mean := listMean values
  let variance : ℚ := (values.map fun v => (v - mean) ^ 2).sum / (values.length : ℚ)
  if cvGT20 variance mean then
    [{ type := .warning, icon := "📊",
       message := "Variability: High variability detected in " ++ attrName a
         ++ " (CV: " ++ cvString variance mean ++ "%). Consider monitoring more closely." }]
  else if cvLT10 variance mean then
    [{ type := .success, icon := "📊",
       message := "Variability: Low variability in " ++ attrName a
         ++ " (CV: " ++ cvString variance mean ++ "%). Values are relatively consistent." }]
  else
    [{ type := .info, icon := "📊",
       message := "Variability: Moderate variability in " ++ attrName a
         ++ " (CV: " ++ cvString variance mean ++ "%)." }]

/-- Rule 3 (variability) of `generateInsights`: population variance and
coefficient of variation; exactly one of the three branches is emitted. -/
def variabilityRule (validData : List CombinedData) (a : AttributeKey) : List InsightData :=
  variabilityBody (validData.map fun d => (getAttr d a).getD 0) a

/-- The body of the outlier rule.  The JS source sorts the local `values`
array in place (line 250) and then indexes/filters that same array, so every
read after the sort sees the sorted order: `sortedValues` is the array's
content after the sort, `n` its (unchanged) length. -/
def outlierBody (sortedValues : List ℚ) (n : ℕ) (a : AttributeKey) : List InsightData :=
  let q1 := sortedValues.getD (Nat.floor ((n : ℚ) * 0.25)) 0
  let q3 := sortedValues.getD (Nat.floor ((n : ℚ) * 0.75)) 0
  let iqr := q3 - q1
  let lowerBound := q1 - 1.5 * iqr
  let upperBound := q3 + 1.5 * iqr
  let outliers := sortedValues.filter fun v => decide (v < lowerBound) || decide (upperBound < v)
  if 0 < outliers.length then
    [{ type := .warning, icon := "🎯",
       message := "Outliers: " ++ toString outliers.length ++ " outlier value(s) detected in "
         ++ attrName a ++ ". Review for data quality or significant events." }]
  else []

/-- Rule 4 (outliers) of `generateInsights`: `List.insertionSort` models the
stable in-place `values.sort((a, b) => a - b)`. -/
def outlierRule (validData : List CombinedData) (a : AttributeKey) : List InsightData :=
  let values := validData.map fun d => (getAttr d a).getD 0
  outlierBody (values.insertionSort (· ≤ ·)) values.length a

/-- `generateInsights` (the insights module, lines 138–267): early return on
an empty input or an empty attribute-present subset, then the four rules
pushed in order onto one list — modelled as concatenation of the four rule
blocks. -/
def generateInsights (data : List CombinedData) (a : AttributeKey)
    (dataTypeFilter : DataTypeFilter) : List InsightData :=
  if data.length = 0 then []
  else
    let validData := data.filter fun d => (getAttr d a).isSome
    if validData.length = 0 then []
    else
      deltaRule validData a dataTypeFilter ++ trendRule validData a
        ++ variabilityRule validData a ++ outlierRule validData a

/-!
## Record normalizer and series merger (`csvParser.ts`)
-/

/-- A raw scalar cell as delivered by the CSV transport after dynamic typing:
absent (`undefined`), a number, or a string. -/
inductive JsVal where
  | undef
  | num (q : ℚ)
  | str (s : String)
deriving DecidableEq, Repr

/-- JavaScript truthiness of a raw cell (`if (row.datetime)` etc.):
`undefined`, `0` and `""` are falsy. -/
def JsVal.truthy : JsVal → Bool
  | .undef => false
  | .num q => decide (q ≠ 0)
  | .str s => decide (s ≠ "")

/-- `typeof x === 'number' ? x : undefined`. -/
def JsVal.asNum : JsVal → Option ℚ
  | .num q => some q
  | _ => none

/-- One raw row (mapping of the column names the normalizer inspects to
scalar values). -/
structure RawRow where
  datetime : JsVal := .undef
  date : JsVal := .undef
  timestamp : JsVal := .undef
  StressIndex : JsVal := .undef
  HeartRate : JsVal := .undef
  SystolicBP : JsVal := .undef
  DiastolicBP : JsVal := .undef
deriving DecidableEq, Repr

/-- The synthetic fallback timestamp: base instant (`now − 180 days` for
Historical, `now` for Predicted) plus `index` hours, in milliseconds. -/
def syntheticTimestamp (now : ℤ) (dataType : DataType) (index : ℕ) : ℤ :=
  let base : ℤ := if dataType = .Historical then now - 180 * 24 * 60 * 60 * 1000 else now
  base + index * (60 * 60 * 1000)

/-- The timestamp chosen by the truthiness cascade of `processPatientData`
(lines 27–39): the first truthy of `datetime`/`date`/`timestamp` is parsed
(`parse` models `new Date(·).getTime()`, `none` = `NaN`); with no truthy
column the synthetic timestamp (always valid) is built directly. -/
def resolvedDatetime (parse : JsVal → Option ℤ) (now : ℤ) (dataType : DataType)
    (index : ℕ) (row : RawRow) : Option ℤ :=
  if row.datetime.truthy then parse row.datetime
  else if row.date.truthy then parse row.date
  else if row.timestamp.truthy then parse row.timestamp
  else some (syntheticTimestamp now dataType index)

/-- Normalization of one row (`processPatientData`'s `map` body): the
`isNaN(datetime.getTime())` guard (lines 42–47) replaces an invalid parse by
the synthetic timestamp; each attribute is kept only when strictly numeric. -/
def processRow (parse : JsVal → Option ℤ) (now : ℤ) (dataType : DataType)
    (index : ℕ) (row : RawRow) : CombinedData :=
  { datetime := (resolvedDatetime parse now dataType index row).getD
      (syntheticTimestamp now dataType index),
    dataType := dataType,
    StressIndex := row.StressIndex.asNum,
    HeartRate := row.HeartRate.asNum,
    SystolicBP := row.SystolicBP.asNum,
    DiastolicBP := row.DiastolicBP.asNum }

/-- `processPatientData(rawData, dataType)`: normalize every row with its
ordinal index. -/
def processPatientData (parse : JsVal → Option ℤ) (now : ℤ)
    (rawData : List RawRow) (dataType : DataType) : List CombinedData :=
  rawData.enum.map fun p => processRow parse now dataType p.1 p.2

/-- The comparator of the series merge sort:
`(a, b) => a.datetime.getTime() - b.datetime.getTime()` is the non-strict
timestamp order for a stable sort. -/
def tsLe (a b : CombinedData) : Prop :=
  a.datetime ≤ b.datetime

instance : DecidableRel tsLe := fun a b =>
  inferInstanceAs (Decidable (a.datetime ≤ b.datetime))

instance : IsTotal CombinedData tsLe :=
  ⟨fun x y => Int.le_total x.datetime y.datetime⟩

instance : IsTrans CombinedData tsLe :=
  ⟨fun _ _ _ h h' => le_trans h h'⟩

/-- The Series Merger (`loadCSVData`, lines 83–85):
`[...historicalData, ...predictedData].sort(by timestamp)`; JavaScript's
`Array.prototype.sort` is stable and is modelled by the stable
`List.insertionSort`. -/
def loadSeries (historicalData predictedData : List CombinedData) : List CombinedData :=
  (historicalData ++ predictedData).insertionSort tsLe

/-!
## Distribution charts: histogram and quartiles (`DistributionCharts.tsx`)
-/

/-- `Math.ceil(Math.sqrt(n))` for a natural `n`. -/
def jsCeilSqrt (n : ℕ) : ℕ :=
  if Nat.sqrt n * Nat.sqrt n = n then Nat.sqrt n else Nat.sqrt n + 1

/-- The component's own filter (lines 28–33): source filter then attribute
presence. -/
def chartFilteredData (data : List CombinedData) (a : AttributeKey)
    (f : DataTypeFilter) : List CombinedData :=
  (data.filter fun d => matchesDataType d f).filter fun d => (getAttr d a).isSome

/-- The result of `Math.min(Math.floor((value − min)/binWidth), binCount − 1)`
on JS numbers: a finite integer, `NaN`, or `−Infinity`.  (`+Infinity` cannot
survive the `Math.min` with the finite `binCount − 1`.) -/
inductive JsIdx where
  | nan
  | negInf
  | int (i : ℤ)
deriving DecidableEq, Repr

/-- The bin index computed at line 55.  When `binWidth = 0` the JS division
by zero yields `0/0 = NaN` (value at the minimum) or `±Infinity`; `Math.floor`
and `Math.min` propagate these as shown. -/
def jsBinIndexRaw (value vmin binWidth : ℚ) (binCount : ℕ) : JsIdx :=
  if binWidth = 0 then
    if value - vmin = 0 then .nan
    else if 0 < value - vmin then .int ((binCount : ℤ) - 1)
    else .negInf
  else .int (min (Int.floor ((value - vmin) / binWidth)) ((binCount : ℤ) - 1))

/-- The guard `binIndex >= 0 && binIndex < bins.length` (line 56): `some i`
when the record is counted into bin `i`, `none` when the increment is
skipped.  Every comparison with `NaN` is false, and `−Infinity >= 0` is
false. -/
def jsIdxCounted (j : JsIdx) (len : ℕ) : Option ℕ :=
  match j with
  | .int i => if 0 ≤ i ∧ i < (len : ℤ) then some i.toNat else none
  | _ => none

/-- Whether record `d` is counted into bin `i` of the histogram. -/
def assignedToBin (d : CombinedData) (a : AttributeKey) (vmin binWidth : ℚ)
    (binCount : ℕ) (i : ℕ) : Bool :=
  decide (jsIdxCounted (jsBinIndexRaw ((getAttr d a).getD 0) vmin binWidth binCount)
    binCount = some i)

/-- One histogram bin (line 45). -/
structure HistBin where
  range : String
  midpoint : ℚ
  Historical : ℕ
  Predicted : ℕ
  total : ℕ
deriving DecidableEq, Repr

/-- The extracted numeric values `filteredData.map(d => d[attribute])` of
`createHistogramData`. -/
def histValues (filteredData : List CombinedData) (a : AttributeKey) : List ℚ :=
  filteredData.map fun d => (getAttr d a).getD 0

/-- `const min = Math.min(...values)` of `createHistogramData`. -/
def histMin (filteredData : List CombinedData) (a : AttributeKey) : ℚ :=
  listMin (histValues filteredData a)

/-- `const max = Math.max(...values)` of `createHistogramData`. -/
def histMax (filteredData : List CombinedData) (a : AttributeKey) : ℚ :=
  listMax (histValues filteredData a)

/-- `binCount = Math.min(20, Math.ceil(Math.sqrt(values.length)))`. -/
def histBinCount (filteredData : List CombinedData) (a : AttributeKey) : ℕ :=
  min 20 (jsCeilSqrt (histValues filteredData a).length)

/-- `binWidth = (max − min) / binCount`. -/
def histBinWidth (filteredData : List CombinedData) (a : AttributeKey) : ℚ :=
  (histMax filteredData a - histMin filteredData a) / (histBinCount filteredData a : ℚ)

/-- `createHistogramData` (lines 36–63): empty input yields `[]`; otherwise
`binCount = min(20, ceil(√n))` bins of width `(max − min)/binCount`.  The
`forEach` increment loop is modelled by counting, per bin, the records whose
guarded bin index is that bin. -/
def createHistogramData (filteredData : List CombinedData) (a : AttributeKey) :
    List HistBin :=
  if (histValues filteredData a).length = 0 then []
  else
    let vmin := histMin filteredData a
    let binCount := histBinCount filteredData a
    let binWidth := histBinWidth filteredData a
    (List.range binCount).map fun (i : ℕ) =>
      { range := ratToFixed1 (vmin + (i : ℚ) * binWidth) ++ "-"
          ++ ratToFixed1 (vmin + ((i : ℚ) + 1) * binWidth),
        midpoint := vmin + ((i : ℚ) + 1/2) * binWidth,
        Historical := filteredData.countP fun d =>
          decide (d.dataType = .Historical) && assignedToBin d a vmin binWidth binCount i,
        Predicted := filteredData.countP fun d =>
          decide (d.dataType = .Predicted) && assignedToBin d a vmin binWidth binCount i,
        total := filteredData.countP fun d => assignedToBin d a vmin binWidth binCount i }

/-- The quartile summary returned by `getQuartiles` (lines 77–92). -/
structure QuartileStats where
  min : ℚ
  q1 : ℚ
  median : ℚ
  q3 : ℚ
  max : ℚ
  mean : ℚ
deriving DecidableEq, Repr

/-- `getQuartiles` (lines 77–92): `null` for an empty array, otherwise
nearest-rank indexing into the (already sorted) `values`. -/
def getQuartiles (values : List ℚ) : Option QuartileStats :=
  if values.length = 0 then none
  else
    let q1Index := Nat.floor ((values.length : ℚ) * 0.25)
    let q2Index := Nat.floor ((values.length : ℚ) * 0.5)
    let q3Index := Nat.floor ((values.length : ℚ) * 0.75)
    some { min := values.getD 0 0,
           q1 := values.getD q1Index 0,
           median := values.getD q2Index 0,
           q3 := values.getD q3Index 0,
           max := values.getD (values.length - 1) 0,
           mean := listMean values }

/-- One entry of the box-plot summary. -/
structure BoxPlotEntry where
  name : String
  stats : QuartileStats
deriving DecidableEq, Repr

/-- `createBoxPlotData` (lines 66–117): per-source values sorted ascending,
quartiles per subset, an entry pushed only when the source is included by the
filter and its subset is non-empty. -/
def createBoxPlotData (filteredData : List CombinedData) (a : AttributeKey)
    (dataTypeFilter : DataTypeFilter) : List BoxPlotEntry :=
  let historicalValues :=
    ((filteredData.filter fun d => decide (d.dataType = .Historical)).map
      fun d => (getAttr d a).getD 0).insertionSort (· ≤ ·)
  let predictedValues :=
    ((filteredData.filter fun d => decide (d.dataType = .Predicted)).map
      fun d => (getAttr d a).getD 0).insertionSort (· ≤ ·)
  let histPart :=
    if dataTypeFilter = .Both ∨ dataTypeFilter = .Historical then
      match getQuartiles historicalValues with
      | some s => [{ name := "Historical", stats := s }]
      | none => []
    else []
  let predPart :=
    if dataTypeFilter = .Both ∨ dataTypeFilter = .Predicted then
      match getQuartiles predictedValues with
      | some s => [{ name := "Predicted", stats := s }]
      | none => []
    else []
  histPart ++ predPart

/-!
## A store-passing model of the numeric arrays (`generateInsights`)

JavaScript `Array.prototype.sort` mutates its receiver.  To settle the
aliasing question — whether the in-place sort in the outlier rule can corrupt
the Series, the Working Set or the values read by the variability rule — the
numeric arrays of `generateInsights` are given identities in an explicit
store: `map` allocates a fresh array (as in JS), `sort` overwrites one array
in place.  Record arrays need no store: no operation in the source mutates an
array of records.
-/

/-- A heap of numeric arrays, addressed by allocation order. -/
structure NumStore where
  arrays : List (List ℚ)
deriving Repr

/-- Allocate a fresh array (the semantics of `Array.prototype.map`), returning
its reference. -/
def NumStore.alloc (st : NumStore) (xs : List ℚ) : ℕ × NumStore :=
  (st.arrays.length, ⟨st.arrays ++ [xs]⟩)

/-- Read the array behind a reference. -/
def NumStore.read (st : NumStore) (r : ℕ) : List ℚ :=
  st.arrays.getD r []

/-- Sort one array in place (the semantics of `values.sort((a, b) => a - b)`). -/
def NumStore.sortAt (st : NumStore) (r : ℕ) : NumStore :=
  ⟨st.arrays.set r ((st.arrays.getD r []).insertionSort (· ≤ ·))⟩

/-- `generateInsights` with the numeric arrays threaded through the store:
the trend rule allocates its own local `values` (line 187), the
variability/outlier rules share the second `values` array (line 223), which
is read by the variability rule before the outlier rule sorts it in place
(line 250) and reads it again. -/
def generateInsightsH (data : List CombinedData) (a : AttributeKey)
    (dataTypeFilter : DataTypeFilter) (st : NumStore) : List InsightData × NumStore :=
  if data.length = 0 then ([], st)
  else
    let validData := data.filter fun d => (getAttr d a).isSome
    if validData.length = 0 then ([], st)
    else
      let deltaPart := deltaRule validData a dataTypeFilter
      let trendAlloc :=
        if 1 < validData.length then
          let p := st.alloc (validData.map fun d => (getAttr d a).getD 0)
          (trendBody (p.2.read p.1) a, p.2)
        else ([], st)
      let trendPart := trendAlloc.1
      let p2 := trendAlloc.2.alloc (validData.map fun d => (getAttr d a).getD 0)
      let vRef := p2.1
      let st2 := p2.2
      let varPart := variabilityBody (st2.read vRef) a
      let st3 := st2.sortAt vRef
      let outPart := outlierBody (st3.read vRef) (st2.read vRef).length a
      (deltaPart ++ trendPart ++ varPart ++ outPart, st3)

/-!
## Concrete scenarios from the spec's testable properties
-/

/-- A Historical record carrying only a StressIndex value. -/
def histRec (t : ℤ) (v : ℚ) : CombinedData :=
  { datetime := t, dataType := .Historical, StressIndex := some v }

/-- A Predicted record carrying only a StressIndex value. -/
def predRec (t : ℤ) (v : ℚ) : CombinedData :=
  { datetime := t, dataType := .Predicted, StressIndex := some v }

/-- The end-to-end scenario: 3 Historical records with StressIndex
`[40, 50, 60]` and 3 Predicted records with StressIndex `[70, 80, 90]`. -/
def c4Scenario : List CombinedData :=
  [histRec 0 40, histRec 1 50, histRec 2 60, predRec 3 70, predRec 4 80, predRec 5 90]

/-- A Working Set whose attribute values are all equal (degenerate histogram
range, `binWidth = 0`). -/
def allEqualWS : List CombinedData :=
  [histRec 0 5, histRec 1 5, histRec 2 5, histRec 3 5]

/-!
## Helper lemmas
-/

theorem ratToFixed1_sixty : ratToFixed1 60 = "60.0" := by
  norm_num [ratToFixed1, ratToFixed1Nonneg]
  rfl

theorem listMax_spec (values : List ℚ) (h : values ≠ []) :
    listMax values ∈ values ∧ ∀ v ∈ values, v ≤ listMax values := by
  obtain ⟨m, hm⟩ : ∃ m, values.max? = some m := by
    cases hmax : values.max? with
    | none => exact absurd (List.max?_eq_none_iff.mp hmax) h
    | some m => exact ⟨m, rfl⟩
  have hmem : m ∈ values := List.max?_mem (fun a b => max_choice a b) hm
  have hle : ∀ v ∈ values, v ≤ m :=
    (List.max?_le_iff (fun a b c => max_le_iff) hm).mp (le_refl m)
  simp only [listMax, hm, Option.getD_some]
  exact ⟨hmem, hle⟩

theorem listMin_spec (values : List ℚ) (h : values ≠ []) :
    listMin values ∈ values ∧ ∀ v ∈ values, listMin values ≤ v := by
  obtain ⟨m, hm⟩ : ∃ m, values.min? = some m := by
    cases hmin : values.min? with
    | none => exact absurd (List.min?_eq_none_iff.mp hmin) h
    | some m => exact ⟨m, rfl⟩
  have hmem : m ∈ values := List.min?_mem (fun a b => min_choice a b) hm
  have hle : ∀ v ∈ values, m ≤ v :=
    (List.le_min?_iff (fun a b c => le_min_iff) hm).mp (le_refl m)
  simp only [listMin, hm, Option.getD_some]
  exact ⟨hmem, hle⟩

/-!
## Claim theorems
-/

/-- C5: for an empty Working Set, every aggregate metric is zero,
`changePercent` is undefined (`none`), and the insight list is empty; both
computations are total, so no exception can arise. -/
theorem empty_working_set_metrics_and_insights (a : AttributeKey) (dr : DateRange)
    (f : DataTypeFilter) :
    metrics [] a dr =
      { average := 0, max := 0, min := 0, totalRecords := 0,
        historicalRecords := 0, predictedRecords := 0, dateSpan := 0,
        changePercent := none } ∧
    generateInsights [] a f = [] :=
  ⟨rfl, rfl⟩

/-- C3: `changePercent` is defined iff both the Historical and the Predicted
subsets of the Working Set are non-empty, and in that case it equals
`(predictedMean − historicalMean) / historicalMean × 100`; otherwise it is
`none` (JS `undefined`), never `0` or a junk number. -/
theorem changePercent_defined_iff (wd : List CombinedData) (a : AttributeKey)
    (dr : DateRange) :
    ((metrics wd a dr).changePercent.isSome ↔
      ((∃ d ∈ wd, d.dataType = .Historical) ∧ (∃ d ∈ wd, d.dataType = .Predicted))) ∧
    ((∃ d ∈ wd, d.dataType = .Historical) → (∃ d ∈ wd, d.dataType = .Predicted) →
      (metrics wd a dr).changePercent =
        some
          (((listMean ((wd.filter fun d => decide (d.dataType = .Predicted)).map
                fun d => (getAttr d a).getD 0)
            - listMean ((wd.filter fun d => decide (d.dataType = .Historical)).map
                fun d => (getAttr d a).getD 0))
            / listMean ((wd.filter fun d => decide (d.dataType = .Historical)).map
                fun d => (getAttr d a).getD 0)) * 100)) := by
  have hexh : (∃ d ∈ wd, d.dataType = .Historical) ↔
      0 < (wd.filter fun d => decide (d.dataType = .Historical)).length := by
    rw [List.length_pos_iff_exists_mem]
    constructor
    · rintro ⟨d, hd, hdt⟩
      exact ⟨d, List.mem_filter.mpr ⟨hd, by simp [hdt]⟩⟩
    · rintro ⟨d, hd⟩
      obtain ⟨hmem, hdec⟩ := List.mem_filter.mp hd
      exact ⟨d, hmem, by simpa using hdec⟩
  have hexp : (∃ d ∈ wd, d.dataType = .Predicted) ↔
      0 < (wd.filter fun d => decide (d.dataType = .Predicted)).length := by
    rw [List.length_pos_iff_exists_mem]
    constructor
    · rintro ⟨d, hd, hdt⟩
      exact ⟨d, List.mem_filter.mpr ⟨hd, by simp [hdt]⟩⟩
    · rintro ⟨d, hd⟩
      obtain ⟨hmem, hdec⟩ := List.mem_filter.mp hd
      exact ⟨d, hmem, by simpa using hdec⟩
  by_cases hlen : wd.length = 0
  · have hnil : wd = [] := List.length_eq_zero.mp hlen
    subst hnil
    simp [metrics]
  · constructor
    · simp only [metrics, if_neg hlen]
      by_cases hc : 0 < (wd.filter fun d => decide (d.dataType = .Historical)).length ∧
          0 < (wd.filter fun d => decide (d.dataType = .Predicted)).length
      · simp [hc, hexh, hexp]
      · simp only [if_neg hc]
        simp only [hexh, hexp]
        simpa using hc
    · intro hH hP
      have hc : 0 < (wd.filter fun d => decide (d.dataType = .Historical)).length ∧
          0 < (wd.filter fun d => decide (d.dataType = .Predicted)).length :=
        ⟨hexh.mp hH, hexp.mp hP⟩
      simp only [metrics, if_neg hlen, if_pos hc, listMean, List.length_map]

/-- Witness for C3 at the end-to-end scenario: both subsets are non-empty and
`changePercent` is the defined percentage. -/
theorem changePercent_defined_iff_witness :
    (∃ d ∈ c4Scenario, d.dataType = .Historical) ∧
    (∃ d ∈ c4Scenario, d.dataType = .Predicted) ∧
    (metrics c4Scenario .StressIndex { startMs := 0, endMs := 5 }).changePercent =
      some
        (((listMean ((c4Scenario.filter fun d => decide (d.dataType = .Predicted)).map
              fun d => (getAttr d .StressIndex).getD 0)
          - listMean ((c4Scenario.filter fun d => decide (d.dataType = .Historical)).map
              fun d => (getAttr d .StressIndex).getD 0))
          / listMean ((c4Scenario.filter fun d => decide (d.dataType = .Historical)).map
              fun d => (getAttr d .StressIndex).getD 0)) * 100) :=
  ⟨by decide, by decide,
    (changePercent_defined_iff c4Scenario .StressIndex { startMs := 0, endMs := 5 }).2
      (by decide) (by decide)⟩

/-- C4: the insight rules are evaluated in the fixed order
delta, trend, variability, outliers, and on the end-to-end scenario
(Historical StressIndex `[40,50,60]`, Predicted `[70,80,90]`, filter Both)
`changePercent = 60` and the first insight is a warning whose message
contains "increase by 60.0%". -/
theorem insight_rule_order_and_scenario :
    (∀ (data : List CombinedData) (a : AttributeKey) (f : DataTypeFilter),
        data.filter (fun d => (getAttr d a).isSome) ≠ [] →
        generateInsights data a f =
          deltaRule (data.filter fun d => (getAttr d a).isSome) a f
            ++ trendRule (data.filter fun d => (getAttr d a).isSome) a
            ++ variabilityRule (data.filter fun d => (getAttr d a).isSome) a
            ++ outlierRule (data.filter fun d => (getAttr d a).isSome) a) ∧
    (metrics c4Scenario .StressIndex { startMs := 0, endMs := 5 }).changePercent = some 60 ∧
    (generateInsights c4Scenario .StressIndex .Both).head? = some
      { type := .warning, icon := "⚠️",
        message := "StressIndex is projected to increase by 60.0%. Preventive measures recommended." } ∧
    (∃ p q : String,
      "StressIndex is projected to increase by 60.0%. Preventive measures recommended."
        = p ++ "increase by 60.0%" ++ q) := by
  have horder : ∀ (data : List CombinedData) (a : AttributeKey) (f : DataTypeFilter),
      data.filter (fun d => (getAttr d a).isSome) ≠ [] →
      generateInsights data a f =
        deltaRule (data.filter fun d => (getAttr d a).isSome) a f
          ++ trendRule (data.filter fun d => (getAttr d a).isSome) a
          ++ variabilityRule (data.filter fun d => (getAttr d a).isSome) a
          ++ outlierRule (data.filter fun d => (getAttr d a).isSome) a := by
    intro data a f h
    have h0 : ¬ data.length = 0 := by
      intro h0
      rw [List.length_eq_zero] at h0
      subst h0
      simp at h
    have h1 : ¬ (data.filter fun d => (getAttr d a).isSome).length = 0 :=
      fun hl => h (List.length_eq_zero.mp hl)
    simp only [generateInsights, if_neg h0, if_neg h1]
  have hvalid : c4Scenario.filter (fun d => (getAttr d .StressIndex).isSome) = c4Scenario := by
    decide
  have hd : deltaRule c4Scenario .StressIndex .Both =
      [{ type := .warning, icon := "⚠️",
         message := "StressIndex is projected to increase by 60.0%. Preventive measures recommended." }] := by
    simp [deltaRule, c4Scenario, histRec, predRec, getAttr, List.filter, listMean, attrName]
    norm_num
    rw [ratToFixed1_sixty]
    rfl
  refine ⟨horder, ?_, ?_, ?_⟩
  · simp [metrics, c4Scenario, histRec, predRec, getAttr, List.filter]
    norm_num
  · rw [horder c4Scenario .StressIndex .Both (by rw [hvalid]; decide), hvalid, hd]
    rfl
  · exact ⟨"StressIndex is projected to ", ". Preventive measures recommended.", rfl⟩

/-- Witness for C4: the rule-order decomposition instantiated at the
end-to-end scenario. -/
theorem insight_rule_order_witness :
    generateInsights c4Scenario .StressIndex .Both =
      deltaRule (c4Scenario.filter fun d => (getAttr d .StressIndex).isSome) .StressIndex .Both
        ++ trendRule (c4Scenario.filter fun d => (getAttr d .StressIndex).isSome) .StressIndex
        ++ variabilityRule (c4Scenario.filter fun d => (getAttr d .StressIndex).isSome) .StressIndex
        ++ outlierRule (c4Scenario.filter fun d => (getAttr d .StressIndex).isSome) .StressIndex :=
  insight_rule_order_and_scenario.1 c4Scenario .StressIndex .Both (by decide)

/-- C8: for every non-empty value list the quartile summary uses
nearest-rank indexing `floor(n*p)` (all three indices are in range), the
box-plot pipeline feeds `getQuartiles` the ascending-sorted per-source
values (a sorted permutation of the subset), and on `[10,20,30,40]` the
summary is Q1 = 20, median = 30, Q3 = 40. -/
theorem quartiles_nearest_rank :
    (∀ values : List ℚ, values ≠ [] →
      (Nat.floor ((values.length : ℚ) * 0.25) < values.length ∧
       Nat.floor ((values.length : ℚ) * 0.5) < values.length ∧
       Nat.floor ((values.length : ℚ) * 0.75) < values.length) ∧
      getQuartiles values = some
        { min := values.getD 0 0,
          q1 := values.getD (Nat.floor ((values.length : ℚ) * 0.25)) 0,
          median := values.getD (Nat.floor ((values.length : ℚ) * 0.5)) 0,
          q3 := values.getD (Nat.floor ((values.length : ℚ) * 0.75)) 0,
          max := values.getD (values.length - 1) 0,
          mean := listMean values }) ∧
    (∀ (filteredData : List CombinedData) (a : AttributeKey),
      List.Sorted (· ≤ ·)
        (((filteredData.filter fun d => decide (d.dataType = .Historical)).map
          fun d => (getAttr d a).getD 0).insertionSort (· ≤ ·)) ∧
      ((((filteredData.filter fun d => decide (d.dataType = .Historical)).map
          fun d => (getAttr d a).getD 0).insertionSort (· ≤ ·)).Perm
        ((filteredData.filter fun d => decide (d.dataType = .Historical)).map
          fun d => (getAttr d a).getD 0)) ∧
      ((filteredData.filter fun d => decide (d.dataType = .Historical)) ≠ [] →
        ∃ s, getQuartiles
            (((filteredData.filter fun d => decide (d.dataType = .Historical)).map
              fun d => (getAttr d a).getD 0).insertionSort (· ≤ ·)) = some s ∧
          { name := "Historical", stats := s } ∈ createBoxPlotData filteredData a .Both)) ∧
    getQuartiles [10, 20, 30, 40] =
      some { min := 10, q1 := 20, median := 30, q3 := 40, max := 40, mean := 25 } := by
  have hmain : ∀ values : List ℚ, values ≠ [] →
      (Nat.floor ((values.length : ℚ) * 0.25) < values.length ∧
       Nat.floor ((values.length : ℚ) * 0.5) < values.length ∧
       Nat.floor ((values.length : ℚ) * 0.75) < values.length) ∧
      getQuartiles values = some
        { min := values.getD 0 0,
          q1 := values.getD (Nat.floor ((values.length : ℚ) * 0.25)) 0,
          median := values.getD (Nat.floor ((values.length : ℚ) * 0.5)) 0,
          q3 := values.getD (Nat.floor ((values.length : ℚ) * 0.75)) 0,
          max := values.getD (values.length - 1) 0,
          mean := listMean values } := by
    intro values hne
    have hlen : values.length ≠ 0 := fun h => hne (List.length_eq_zero.mp h)
    have hpos : (0 : ℚ) < values.length := by
      have := Nat.pos_of_ne_zero hlen
      exact_mod_cast this
    have hb : ∀ c : ℚ, 0 ≤ c → c < 1 → Nat.floor ((values.length : ℚ) * c) < values.length := by
      intro c hc0 hc1
      rw [Nat.floor_lt (by positivity)]
      calc (values.length : ℚ) * c < (values.length : ℚ) * 1 := by
            exact mul_lt_mul_of_pos_left hc1 hpos
        _ = values.length := mul_one _
    refine ⟨⟨hb _ (by norm_num) (by norm_num), hb _ (by norm_num) (by norm_num),
        hb _ (by norm_num) (by norm_num)⟩, ?_⟩
    rw [getQuartiles, if_neg hlen]
  refine ⟨hmain, ?_, ?_⟩
  · intro filteredData a
    refine ⟨List.sorted_insertionSort _ _, List.perm_insertionSort _ _, ?_⟩
    intro hne
    set sortedH := (((filteredData.filter fun d => decide (d.dataType = .Historical)).map
      fun d => (getAttr d a).getD 0).insertionSort (· ≤ ·)) with hs
    have hlen : sortedH ≠ [] := by
      intro h
      apply hne
      have := List.length_insertionSort (· ≤ ·)
        ((filteredData.filter fun d => decide (d.dataType = .Historical)).map
          fun d => (getAttr d a).getD 0)
      rw [← hs, h] at this
      simp at this
      exact List.length_eq_zero.mp (by simp [this])
    obtain ⟨_, hq⟩ := hmain sortedH hlen
    refine ⟨_, hq, ?_⟩
    rw [createBoxPlotData]
    simp only [← hs, hq]
    apply List.mem_append_left
    simp
  · have h := (hmain [10, 20, 30, 40] (by simp)).2
    rw [h]
    norm_num [listMean, List.getD]

/-- Witness for C8: the nearest-rank equations instantiated at the spec's
example list `[10,20,30,40]`. -/
theorem quartiles_nearest_rank_witness :
    getQuartiles [(10 : ℚ), 20, 30, 40] = some
      { min := [(10 : ℚ), 20, 30, 40].getD 0 0,
        q1 := [(10 : ℚ), 20, 30, 40].getD
          (Nat.floor ((([(10 : ℚ), 20, 30, 40].length : ℕ) : ℚ) * 0.25)) 0,
        median := [(10 : ℚ), 20, 30, 40].getD
          (Nat.floor ((([(10 : ℚ), 20, 30, 40].length : ℕ) : ℚ) * 0.5)) 0,
        q3 := [(10 : ℚ), 20, 30, 40].getD
          (Nat.floor ((([(10 : ℚ), 20, 30, 40].length : ℕ) : ℚ) * 0.75)) 0,
        max := [(10 : ℚ), 20, 30, 40].getD ([(10 : ℚ), 20, 30, 40].length - 1) 0,
        mean := listMean [(10 : ℚ), 20, 30, 40] } :=
  (quartiles_nearest_rank.1 [10, 20, 30, 40] (by simp)).2

/-! Evaluation lemmas for the degenerate all-equal Working Set. -/

theorem allEqual_histValues : histValues allEqualWS .StressIndex = [5, 5, 5, 5] := rfl

theorem allEqual_min : histMin allEqualWS .StressIndex = 5 := by
  have h := listMin_spec (histValues allEqualWS .StressIndex) (by rw [allEqual_histValues]; simp)
  rw [allEqual_histValues] at h
  have hm := h.1
  simpa [histMin, allEqual_histValues] using hm

theorem allEqual_max : histMax allEqualWS .StressIndex = 5 := by
  have h := listMax_spec (histValues allEqualWS .StressIndex) (by rw [allEqual_histValues]; simp)
  rw [allEqual_histValues] at h
  have hm := h.1
  simpa [histMax, allEqual_histValues] using hm

theorem sqrt_four : Nat.sqrt 4 = 2 := (Nat.eq_sqrt.mpr (by norm_num)).symm

theorem allEqual_binCount : histBinCount allEqualWS .StressIndex = 2 := by
  rw [histBinCount, allEqual_histValues]
  norm_num [jsCeilSqrt, sqrt_four]

theorem allEqual_binWidth : histBinWidth allEqualWS .StressIndex = 0 := by
  rw [histBinWidth, allEqual_min, allEqual_max]
  norm_num

theorem allEqual_nan : jsBinIndexRaw 5 5 0 2 = .nan := by
  norm_num [jsBinIndexRaw]

/-- C1 (evaluating the code at the failing input): for the all-equal Working
Set `allEqualWS` (four records with StressIndex 5) the bin index is `NaN`
(division `0/0`), the histogram has 2 bins (not a single bin), and every bin
counts 0 records — the spec's "single bin containing all values" does not
hold. -/
theorem degenerate_histogram_eval :
    allEqualWS ≠ [] ∧
    jsBinIndexRaw 5 5 (histBinWidth allEqualWS .StressIndex)
      (histBinCount allEqualWS .StressIndex) = .nan ∧
    (createHistogramData allEqualWS .StressIndex).length = 2 ∧
    ∀ b ∈ createHistogramData allEqualWS .StressIndex,
      b.total = 0 ∧ b.Historical = 0 ∧ b.Predicted = 0 := by
  have hassign : ∀ d ∈ allEqualWS, ∀ i : ℕ,
      assignedToBin d .StressIndex (histMin allEqualWS .StressIndex)
        (histBinWidth allEqualWS .StressIndex) (histBinCount allEqualWS .StressIndex) i = false := by
    intro d hd i
    have hv : (getAttr d .StressIndex).getD 0 = 5 := by
      fin_cases hd <;> rfl
    rw [assignedToBin, hv, allEqual_min, allEqual_binWidth, allEqual_binCount, allEqual_nan]
    simp [jsIdxCounted]
  have hne : ¬ (histValues allEqualWS .StressIndex).length = 0 := by
    rw [allEqual_histValues]; simp
  refine ⟨by simp [allEqualWS], by rw [allEqual_binWidth, allEqual_binCount]; exact allEqual_nan, ?_, ?_⟩
  · rw [createHistogramData, if_neg hne]
    simp [allEqual_binCount]
  · intro b hb
    rw [createHistogramData, if_neg hne] at hb
    obtain ⟨i, hi, hbi⟩ := List.mem_map.mp hb
    refine ⟨?_, ?_, ?_⟩ <;>
      simp only [← hbi] <;>
      rw [List.countP_eq_zero] <;>
      intro d hd <;>
      simp [hassign d hd i]

/-- Counterexample to C2 as stated: on the non-empty all-equal Working Set
the maximum value's guarded bin index is `none` (the increment is skipped),
and the last bin's total is 0, so the maximum value is not counted in the
last bin. -/
theorem histogram_max_dropped_counterexample :
    allEqualWS ≠ [] ∧
    histMax allEqualWS .StressIndex = 5 ∧
    jsIdxCounted
      (jsBinIndexRaw (histMax allEqualWS .StressIndex) (histMin allEqualWS .StressIndex)
        (histBinWidth allEqualWS .StressIndex) (histBinCount allEqualWS .StressIndex))
      (histBinCount allEqualWS .StressIndex) = none ∧
    ((createHistogramData allEqualWS .StressIndex).getLast?).map HistBin.total = some 0 := by
  have hne : ¬ (histValues allEqualWS .StressIndex).length = 0 := by
    rw [allEqual_histValues]; simp
  refine ⟨by simp [allEqualWS], allEqual_max, ?_, ?_⟩
  · rw [allEqual_max, allEqual_min, allEqual_binWidth, allEqual_binCount, allEqual_nan]
    rfl
  · rw [createHistogramData, if_neg hne]
    rw [List.getLast?_map]
    have hr : (List.range (histBinCount allEqualWS .StressIndex)).getLast? = some 1 := by
      rw [allEqual_binCount]
      rfl
    rw [hr]
    simp only [Option.map_some, Option.map]
    congr 1
    rw [List.countP_eq_zero]
    intro d hd
    have hv : (getAttr d .StressIndex).getD 0 = 5 := by
      fin_cases hd <;> rfl
    simp only [assignedToBin, hv, allEqual_min, allEqual_binWidth, allEqual_binCount, allEqual_nan]
    simp [jsIdxCounted]

/-- C2 (amended): for every Working Set whose attribute values are not all
equal (`min < max`, so `binWidth > 0`), every record's clamped bin index is
defined and in range, every record attaining the maximum is assigned the last
bin index `binCount − 1`, the histogram has exactly `binCount` bins, and the
last bin's total is positive. -/
theorem histogram_bin_assignment_in_range :
    ∀ (filteredData : List CombinedData) (a : AttributeKey),
      histMin filteredData a < histMax filteredData a →
      (∀ d ∈ filteredData, ∃ i : ℕ,
          jsIdxCounted
            (jsBinIndexRaw ((getAttr d a).getD 0) (histMin filteredData a)
              (histBinWidth filteredData a) (histBinCount filteredData a))
            (histBinCount filteredData a) = some i ∧ i < histBinCount filteredData a) ∧
      (∀ d ∈ filteredData, (getAttr d a).getD 0 = histMax filteredData a →
          jsIdxCounted
            (jsBinIndexRaw ((getAttr d a).getD 0) (histMin filteredData a)
              (histBinWidth filteredData a) (histBinCount filteredData a))
            (histBinCount filteredData a) = some (histBinCount filteredData a - 1)) ∧
      (createHistogramData filteredData a).length = histBinCount filteredData a ∧
      (∃ b, (createHistogramData filteredData a).getLast? = some b ∧ 0 < b.total) := by
  intro fd a hlt
  set values := histValues fd a with hv
  have hne : values ≠ [] := by
    intro h
    rw [histMin, histMax, ← hv, h] at hlt
    simp [listMin, listMax] at hlt
  have hlen : values.length ≠ 0 := fun h => hne (List.length_eq_zero.mp h)
  have hbc : 1 ≤ histBinCount fd a := by
    rw [histBinCount, ← hv]
    refine le_min (by norm_num) ?_
    have hs : 0 < Nat.sqrt values.length := Nat.sqrt_pos.mpr (Nat.pos_of_ne_zero hlen)
    rw [jsCeilSqrt]
    split <;> omega
  have hbcq : (0 : ℚ) < (histBinCount fd a : ℚ) := by exact_mod_cast hbc
  have hbw : 0 < histBinWidth fd a := by
    rw [histBinWidth]
    exact div_pos (sub_pos.mpr hlt) hbcq
  have hbwne : histBinWidth fd a ≠ 0 := ne_of_gt hbw
  -- in-range assignment for every record
  have hin : ∀ d ∈ fd, ∃ i : ℕ,
      jsIdxCounted
        (jsBinIndexRaw ((getAttr d a).getD 0) (histMin fd a)
          (histBinWidth fd a) (histBinCount fd a))
        (histBinCount fd a) = some i ∧ i < histBinCount fd a := by
    intro d hd
    have hmem : (getAttr d a).getD 0 ∈ values := by
      rw [hv, histValues]
      exact List.mem_map_of_mem _ hd
    have hvmin : histMin fd a ≤ (getAttr d a).getD 0 := by
      rw [histMin, ← hv]
      exact (listMin_spec values hne).2 _ hmem
    have hfl0 : 0 ≤ Int.floor (((getAttr d a).getD 0 - histMin fd a) / histBinWidth fd a) :=
      Int.floor_nonneg.mpr (div_nonneg (sub_nonneg.mpr hvmin) hbw.le)
    rw [jsBinIndexRaw, if_neg hbwne]
    set j : ℤ := min (Int.floor (((getAttr d a).getD 0 - histMin fd a) / histBinWidth fd a))
      ((histBinCount fd a : ℤ) - 1) with hj
    have hj0 : 0 ≤ j := le_min hfl0 (by omega)
    have hjlt : j < (histBinCount fd a : ℤ) := lt_of_le_of_lt (min_le_right _ _) (by omega)
    refine ⟨j.toNat, ?_, ?_⟩
    · rw [jsIdxCounted, if_pos ⟨hj0, hjlt⟩]
    · omega
  -- the maximum lands exactly in the last bin
  have hmaxbin : ∀ d ∈ fd, (getAttr d a).getD 0 = histMax fd a →
      jsIdxCounted
        (jsBinIndexRaw ((getAttr d a).getD 0) (histMin fd a)
          (histBinWidth fd a) (histBinCount fd a))
        (histBinCount fd a) = some (histBinCount fd a - 1) := by
    intro d _ hmax
    have hquot : (histMax fd a - histMin fd a) / histBinWidth fd a = (histBinCount fd a : ℚ) := by
      rw [histBinWidth]
      rw [div_div_eq_mul_div, mul_comm, mul_div_assoc,
        div_self (sub_ne_zero.mpr (ne_of_gt hlt)), mul_one]
    have hfloor : Int.floor ((histMax fd a - histMin fd a) / histBinWidth fd a)
        = (histBinCount fd a : ℤ) := by
      rw [hquot]
      exact_mod_cast Int.floor_natCast (histBinCount fd a)
    rw [jsBinIndexRaw, if_neg hbwne, hmax, hfloor]
    have hminm : min ((histBinCount fd a : ℤ)) ((histBinCount fd a : ℤ) - 1)
        = (histBinCount fd a : ℤ) - 1 := min_eq_right (by omega)
    rw [hminm, jsIdxCounted, if_pos ⟨by omega, by omega⟩]
    congr 1
    omega
  refine ⟨hin, hmaxbin, ?_, ?_⟩
  · rw [createHistogramData, if_neg hlen]
    simp
  · -- last bin exists and its total is positive
    rw [createHistogramData, if_neg hlen]
    rw [List.getLast?_map]
    have hr : (List.range (histBinCount fd a)).getLast? = some (histBinCount fd a - 1) := by
      rw [List.getLast?_eq_getElem?, List.length_range]
      exact List.getElem?_range (by omega)
    rw [hr]
    refine ⟨_, rfl, ?_⟩
    simp only
    rw [List.countP_pos_iff]
    -- a record attaining the maximum exists
    have hmaxmem : histMax fd a ∈ values := by
      rw [histMax, ← hv]
      exact (listMax_spec values hne).1
    rw [hv, histValues] at hmaxmem
    obtain ⟨d, hd, hdv⟩ := List.mem_map.mp hmaxmem
    refine ⟨d, hd, ?_⟩
    rw [assignedToBin]
    simp only [hmaxbin d hd hdv]
    simp

/-- Witness for the amended C2 at the end-to-end scenario (values 40..90,
so `min < max`): the last histogram bin exists and counts records. -/
theorem histogram_bin_assignment_in_range_witness :
    histMin c4Scenario .StressIndex < histMax c4Scenario .StressIndex ∧
    (∃ b, (createHistogramData c4Scenario .StressIndex).getLast? = some b ∧ 0 < b.total) := by
  have hvals : histValues c4Scenario .StressIndex = [40, 50, 60, 70, 80, 90] := rfl
  have h1 := listMin_spec (histValues c4Scenario .StressIndex) (by rw [hvals]; simp)
  have h2 := listMax_spec (histValues c4Scenario .StressIndex) (by rw [hvals]; simp)
  have hlow : histMin c4Scenario .StressIndex ≤ 40 := by
    have := h1.2 40 (by rw [hvals]; simp)
    simpa [histMin] using this
  have hhigh : (90 : ℚ) ≤ histMax c4Scenario .StressIndex := by
    have := h2.2 90 (by rw [hvals]; norm_num)
    simpa [histMax] using this
  have hlt : histMin c4Scenario .StressIndex < histMax c4Scenario .StressIndex := by
    calc histMin c4Scenario .StressIndex ≤ 40 := hlow
      _ < 90 := by norm_num
      _ ≤ histMax c4Scenario .StressIndex := hhigh
  exact ⟨hlt, (histogram_bin_assignment_in_range c4Scenario .StressIndex hlt).2.2.2⟩

/-- C6: `processPatientData` preserves the row count, and every output
record's timestamp is the parsed instant when a truthy datetime column parses
validly, and otherwise — invalid parse (`NaN`) or no usable column — the
deterministic synthetic instant `base + index hours` with base `now − 180
days` (Historical) or `now` (Predicted); the timestamp is therefore always a
defined integer instant. -/
theorem timestamp_resolution (parse : JsVal → Option ℤ) (now : ℤ) (dataType : DataType)
    (rows : List RawRow) :
    (processPatientData parse now rows dataType).length = rows.length ∧
    ∀ (i : ℕ) (row : RawRow), rows[i]? = some row →
      ∃ r, (processPatientData parse now rows dataType)[i]? = some r ∧
        r.datetime = (resolvedDatetime parse now dataType i row).getD
          (syntheticTimestamp now dataType i) ∧
        (resolvedDatetime parse now dataType i row = none →
          r.datetime = syntheticTimestamp now dataType i) ∧
        ((¬ row.datetime.truthy ∧ ¬ row.date.truthy ∧ ¬ row.timestamp.truthy) →
          r.datetime = syntheticTimestamp now dataType i) := by
  constructor
  · rw [processPatientData, List.length_map, List.enum_length]
  · intro i row hrow
    refine ⟨processRow parse now dataType i row, ?_, rfl, ?_, ?_⟩
    · rw [processPatientData, List.getElem?_map, List.getElem?_enum, hrow]
      rfl
    · intro hnone
      rw [processRow]
      simp [hnone]
    · intro ⟨h1, h2, h3⟩
      rw [processRow]
      simp only [resolvedDatetime, Bool.not_eq_true] at *
      rw [if_neg (by simp [h1]), if_neg (by simp [h2]), if_neg (by simp [h3])]
      rfl

/-- Witness for C6: a single row whose `datetime` column fails to parse gets
the synthetic Historical timestamp `0 − 180 days + 0 hours`. -/
theorem timestamp_resolution_witness :
    ∃ r, (processPatientData (fun _ => none) 0
        [{ datetime := JsVal.str "not-a-date" }] .Historical)[0]? = some r ∧
      r.datetime = -15552000000 := by
  obtain ⟨r, h1, _, h3, _⟩ :=
    (timestamp_resolution (fun _ => none) 0 .Historical
      [{ datetime := JsVal.str "not-a-date" }]).2 0
      { datetime := JsVal.str "not-a-date" } rfl
  refine ⟨r, h1, ?_⟩
  rw [h3 rfl]
  decide

/-! Stability of `List.insertionSort`: filtering by a fixed timestamp commutes
with sorting, because any two records with the same timestamp compare `tsLe`
in both directions. -/

theorem filter_orderedInsert_of_pos {α : Type} (r : α → α → Prop) [DecidableRel r]
    (p : α → Bool) (x : α) (l : List α) (hx : p x = true)
    (hcomp : ∀ b, p b = true → r x b) :
    (l.orderedInsert r x).filter p = x :: l.filter p := by
  rw [List.orderedInsert_eq_take_drop, List.filter_append, List.filter_cons_of_pos hx]
  have htake : (l.takeWhile fun b => decide ¬ r x b).filter p = [] := by
    rw [List.filter_eq_nil_iff]
    intro b hb hpb
    have hnb : ¬ r x b := by simpa using List.mem_takeWhile_imp hb
    exact hnb (hcomp b hpb)
  rw [htake, List.nil_append]
  congr 1
  conv_rhs => rw [← List.takeWhile_append_dropWhile (p := fun b => decide ¬ r x b) (l := l)]
  rw [List.filter_append, htake, List.nil_append]

theorem filter_orderedInsert_of_neg {α : Type} (r : α → α → Prop) [DecidableRel r]
    (p : α → Bool) (x : α) (l : List α) (hx : p x = false) :
    (l.orderedInsert r x).filter p = l.filter p := by
  rw [List.orderedInsert_eq_take_drop, List.filter_append, List.filter_cons_of_neg (by simp [hx]),
    ← List.filter_append, List.takeWhile_append_dropWhile]

theorem filter_ts_insertionSort (t : ℤ) (l : List CombinedData) :
    (l.insertionSort tsLe).filter (fun d => decide (d.datetime = t))
      = l.filter (fun d => decide (d.datetime = t)) := by
  induction l with
  | nil => rfl
  | cons x xs ih =>
    rw [List.insertionSort]
    by_cases hx : x.datetime = t
    · have hcomp : ∀ b : CombinedData, decide (b.datetime = t) = true → tsLe x b := by
        intro b hb
        have hbt : b.datetime = t := by simpa using hb
        rw [tsLe, hx, hbt]
      rw [filter_orderedInsert_of_pos tsLe _ x _ (by simp [hx]) hcomp, ih,
        List.filter_cons_of_pos (by simp [hx])]
    · rw [filter_orderedInsert_of_neg tsLe _ x _ (by simp [hx]), ih,
        List.filter_cons_of_neg (by simp [hx])]

/-- C7: the Series is the concatenation of Historical then Predicted records
stably sorted by timestamp: it is sorted (every adjacent pair is
non-decreasing), it is a permutation of the concatenation, and for every
timestamp the records carrying it appear in exactly their concatenation
order (Historical before Predicted) — stability. -/
theorem series_sorted_and_stable (historicalData predictedData : List CombinedData) :
    List.Sorted tsLe (loadSeries historicalData predictedData) ∧
    (∀ (i : ℕ) (hi : i + 1 < (loadSeries historicalData predictedData).length),
      ((loadSeries historicalData predictedData).get
        ⟨i, Nat.lt_of_succ_lt hi⟩).datetime ≤
      ((loadSeries historicalData predictedData).get ⟨i + 1, hi⟩).datetime) ∧
    (loadSeries historicalData predictedData).Perm (historicalData ++ predictedData) ∧
    (∀ t : ℤ,
      (loadSeries historicalData predictedData).filter (fun d => decide (d.datetime = t))
        = (historicalData ++ predictedData).filter (fun d => decide (d.datetime = t))) := by
  have hsorted : List.Sorted tsLe (loadSeries historicalData predictedData) :=
    List.sorted_insertionSort tsLe _
  refine ⟨hsorted, ?_, List.perm_insertionSort tsLe _, fun t => filter_ts_insertionSort t _⟩
  intro i hi
  exact hsorted.rel_get_of_lt (by simp [Fin.lt_def])

/-- Witness for C7: on a two-record series (Historical at t=5, Predicted at
t=3) the sorted adjacent pair is non-decreasing. -/
theorem series_sorted_and_stable_witness :
    0 + 1 < (loadSeries [histRec 5 40] [predRec 3 70]).length ∧
    ((loadSeries [histRec 5 40] [predRec 3 70]).get ⟨0, by decide⟩).datetime ≤
      ((loadSeries [histRec 5 40] [predRec 3 70]).get ⟨0 + 1, by decide⟩).datetime :=
  ⟨by decide, (series_sorted_and_stable [histRec 5 40] [predRec 3 70]).2.1 0 (by decide)⟩

/-! Shape of each insight rule: every rule emits zero or one insight; only
the variability rule carries the chart icon, and it always emits exactly
one insight. -/

theorem deltaRule_shape (v : List CombinedData) (a : AttributeKey) (f : DataTypeFilter) :
    deltaRule v a f = [] ∨ ∃ ins : InsightData, deltaRule v a f = [ins] ∧ ins.icon ≠ "📊" := by
  rw [deltaRule]
  dsimp only
  split
  · split
    · split
      · refine Or.inr ⟨_, rfl, ?_⟩
        show ¬ ("⚠️" : String) = "📊"
        decide
      · split
        · refine Or.inr ⟨_, rfl, ?_⟩
          show ¬ ("✅" : String) = "📊"
          decide
        · refine Or.inr ⟨_, rfl, ?_⟩
          show ¬ ("ℹ️" : String) = "📊"
          decide
    · exact Or.inl rfl
  · exact Or.inl rfl

theorem trendRule_shape (v : List CombinedData) (a : AttributeKey) :
    trendRule v a = [] ∨ ∃ ins : InsightData, trendRule v a = [ins] ∧ ins.icon ≠ "📊" := by
  rw [trendRule]
  split
  · rw [trendBody]
    split
    · split
      · refine Or.inr ⟨_, rfl, ?_⟩
        show ¬ ("📈" : String) = "📊"
        decide
      · refine Or.inr ⟨_, rfl, ?_⟩
        show ¬ ("📉" : String) = "📊"
        decide
    · refine Or.inr ⟨_, rfl, ?_⟩
      show ¬ ("➡️" : String) = "📊"
      decide
  · exact Or.inl rfl

theorem variabilityRule_shape (v : List CombinedData) (a : AttributeKey) :
    ∃ ins : InsightData, variabilityRule v a = [ins] ∧ ins.icon = "📊" := by
  rw [variabilityRule, variabilityBody]
  split
  · exact ⟨_, rfl, rfl⟩
  · split
    · exact ⟨_, rfl, rfl⟩
    · exact ⟨_, rfl, rfl⟩

theorem outlierRule_shape (v : List CombinedData) (a : AttributeKey) :
    outlierRule v a = [] ∨ ∃ ins : InsightData, outlierRule v a = [ins] ∧ ins.icon ≠ "📊" := by
  rw [outlierRule, outlierBody]
  split
  · refine Or.inr ⟨_, rfl, ?_⟩
    show ¬ ("🎯" : String) = "📊"
    decide
  · exact Or.inl rfl

/-- C10: whenever at least one record carries the selected attribute, the
insight list contains exactly one variability insight (the rule's three
branches are exhaustive, including the zero-mean case), and the total number
of insights is between 1 and 4. -/
theorem variability_insight_count (data : List CombinedData) (a : AttributeKey)
    (f : DataTypeFilter) (h : ∃ d ∈ data, (getAttr d a).isSome) :
    ((generateInsights data a f).countP fun ins => decide (ins.icon = "📊")) = 1 ∧
    1 ≤ (generateInsights data a f).length ∧ (generateInsights data a f).length ≤ 4 := by
  have hvne : data.filter (fun d => (getAttr d a).isSome) ≠ [] := by
    obtain ⟨d, hd, hs⟩ := h
    intro hnil
    have hmem : d ∈ data.filter (fun d => (getAttr d a).isSome) :=
      List.mem_filter.mpr ⟨hd, hs⟩
    rw [hnil] at hmem
    simp at hmem
  have h0 : ¬ data.length = 0 := by
    intro h0
    apply hvne
    rw [List.length_eq_zero.mp h0]
    rfl
  have h1 : ¬ (data.filter fun d => (getAttr d a).isSome).length = 0 :=
    fun hl => hvne (List.length_eq_zero.mp hl)
  simp only [generateInsights, if_neg h0, if_neg h1]
  rcases deltaRule_shape (data.filter fun d => (getAttr d a).isSome) a f with hd | ⟨di, hd, hdi⟩ <;>
    rcases trendRule_shape (data.filter fun d => (getAttr d a).isSome) a with ht | ⟨ti, ht, hti⟩ <;>
    obtain ⟨vi, hva, hvi⟩ := variabilityRule_shape (data.filter fun d => (getAttr d a).isSome) a <;>
    rcases outlierRule_shape (data.filter fun d => (getAttr d a).isSome) a with ho | ⟨oi, ho, hoi⟩ <;>
    simp_all [List.countP_append, List.countP_cons, List.length_append]

/-- Witness for C10 at the end-to-end scenario. -/
theorem variability_insight_count_witness :
    ((generateInsights c4Scenario .StressIndex .Both).countP
      fun ins => decide (ins.icon = "📊")) = 1 ∧
    1 ≤ (generateInsights c4Scenario .StressIndex .Both).length ∧
    (generateInsights c4Scenario .StressIndex .Both).length ≤ 4 :=
  variability_insight_count c4Scenario .StressIndex .Both ⟨histRec 0 40, by decide, by decide⟩

/-! Store lemmas: allocation appends a fresh cell; an in-place sort touches
only its own cell. -/

theorem NumStore.read_alloc_lt (st : NumStore) (xs : List ℚ) (r : ℕ)
    (h : r < st.arrays.length) : (st.alloc xs).2.read r = st.read r := by
  simp only [NumStore.alloc, NumStore.read, List.getD_eq_getElem?_getD]
  rw [List.getElem?_append_left h]

theorem NumStore.read_alloc_self (st : NumStore) (xs : List ℚ) :
    (st.alloc xs).2.read (st.alloc xs).1 = xs := by
  simp only [NumStore.alloc, NumStore.read, List.getD_eq_getElem?_getD]
  rw [List.getElem?_append_right (le_refl _)]
  simp

theorem NumStore.length_alloc (st : NumStore) (xs : List ℚ) :
    (st.alloc xs).2.arrays.length = st.arrays.length + 1 := by
  simp [NumStore.alloc]

theorem NumStore.read_sortAt_ne (st : NumStore) (r r' : ℕ) (h : r ≠ r') :
    (st.sortAt r').read r = st.read r := by
  simp only [NumStore.sortAt, NumStore.read, List.getD_eq_getElem?_getD]
  rw [List.getElem?_set_ne (fun he => h he.symm)]

theorem NumStore.read_sortAt_self (st : NumStore) (r : ℕ) :
    (st.sortAt r).read r = (st.read r).insertionSort (· ≤ ·) := by
  by_cases h : r < st.arrays.length
  · simp only [NumStore.sortAt, NumStore.read, List.getD_eq_getElem?_getD]
    rw [List.getElem?_set_self (by simpa using h)]
    simp [List.getD_eq_getElem?_getD]
  · have hle : st.arrays.length ≤ r := le_of_not_lt h
    simp only [NumStore.sortAt, NumStore.read, List.getD_eq_getElem?_getD]
    rw [List.set_eq_of_length_le hle]
    have hnone : st.arrays[r]? = none := List.getElem?_eq_none hle
    rw [hnone]
    rfl

theorem NumStore.alloc_fst (st : NumStore) (xs : List ℚ) :
    (st.alloc xs).1 = st.arrays.length := rfl

/-- C9: computing the Working Set is deterministic (pure), the store-passing
insight generator computes the same insights as the pure one (the in-place
sort cannot corrupt the variability rule's reads, which happen before it,
on an array freshly allocated by `map`), and it leaves every array that
existed before the call — in particular any array holding the Series or the
Working Set's values — unchanged. -/
theorem working_set_pure_and_insights_frame :
    ∀ (data : List CombinedData) (a : AttributeKey) (f : DataTypeFilter) (st : NumStore),
      (∀ (series : List CombinedData) (dr : DateRange),
        computeWorkingSet series dr a f = computeWorkingSet series dr a f) ∧
      (generateInsightsH data a f st).1 = generateInsights data a f ∧
      (∀ r, r < st.arrays.length →
        ((generateInsightsH data a f st).2).read r = st.read r) := by
  intro data a f st
  refine ⟨fun _ _ => rfl, ?_, ?_⟩
  · by_cases h0 : data.length = 0
    · simp only [generateInsightsH, generateInsights, if_pos h0]
    by_cases h1 : (data.filter fun d => (getAttr d a).isSome).length = 0
    · simp only [generateInsightsH, generateInsights, if_neg h0, if_pos h1]
    by_cases h2 : 1 < (data.filter fun d => (getAttr d a).isSome).length
    · simp only [generateInsightsH, generateInsights, if_neg h0, if_neg h1, if_pos h2,
        NumStore.read_alloc_self, NumStore.read_sortAt_self,
        trendRule, variabilityRule, outlierRule]
    · simp only [generateInsightsH, generateInsights, if_neg h0, if_neg h1, if_neg h2,
        NumStore.read_alloc_self, NumStore.read_sortAt_self,
        trendRule, variabilityRule, outlierRule, List.nil_append]
  · intro r hr
    by_cases h0 : data.length = 0
    · simp only [generateInsightsH, if_pos h0]
    by_cases h1 : (data.filter fun d => (getAttr d a).isSome).length = 0
    · simp only [generateInsightsH, if_neg h0, if_pos h1]
    by_cases h2 : 1 < (data.filter fun d => (getAttr d a).isSome).length
    · simp only [generateInsightsH, if_neg h0, if_neg h1, if_pos h2]
      rw [NumStore.read_sortAt_ne _ _ _ (by
        simp only [NumStore.alloc_fst, NumStore.length_alloc]
        omega)]
      rw [NumStore.read_alloc_lt _ _ _ (by
        simp only [NumStore.length_alloc]
        omega)]
      rw [NumStore.read_alloc_lt _ _ _ hr]
    · simp only [generateInsightsH, if_neg h0, if_neg h1, if_neg h2]
      rw [NumStore.read_sortAt_ne _ _ _ (by
        simp only [NumStore.alloc_fst]
        omega)]
      rw [NumStore.read_alloc_lt _ _ _ hr]

/-- Witness for C9: with one pre-existing array in the store, running the
insight generator on the end-to-end scenario leaves it unchanged. -/
theorem working_set_pure_and_insights_frame_witness :
    0 < (NumStore.mk [[1, 2, 3]]).arrays.length ∧
    ((generateInsightsH c4Scenario .StressIndex .Both (NumStore.mk [[1, 2, 3]])).2).read 0
      = (NumStore.mk [[1, 2, 3]]).read 0 :=
  ⟨by decide,
    (working_set_pure_and_insights_frame c4Scenario .StressIndex .Both
      (NumStore.mk [[1, 2, 3]])).2.2 0 (by decide)⟩

end WellDoc
